import Mathlib

/-!
Verification of the MemoriSaas technical-interview-prep backend.

This file gives a shallow embedding of the backend's data model and the
operations relevant to the frozen claims, translated from
`backend/database.py` and `backend/main.py`, and proves (or refutes) each
claim about them.

Modelling conventions:
* Timestamps are integers counting microseconds since the Unix epoch
  (Python `datetime` has microsecond resolution); `usPerDay` is one day.
* Python `float` arithmetic on the ease factor is modelled with exact
  rationals (`ℚ`); `int(x)` truncation toward zero is `pyTrunc`.
* Calendar dates (the `strftime("%Y-%m-%d")` keys) are represented by the
  integer day number since the epoch; the epoch day 1970-01-01 was a
  Thursday, so Python's `date.weekday()` (Monday = 0) is `(d + 3) % 7`.
* Database rows are Lean structures; a table is a `List` of rows; the
  in-place mutation performed by `calculate_next_review` becomes explicit
  state passing (the function returns the updated row).
* An endpoint that can raise `HTTPException(status_code=404)` returns
  `Except Nat α`, with `.error 404` for the raise.
-/

namespace InterviewPrep

/-- Microseconds per day; Python `timedelta(days=1)` at `datetime` resolution. -/
def usPerDay : ℤ := 86400000000

/-- Python `int(x)` applied to a real value: truncation toward zero. -/
def pyTrunc (q : ℚ) : ℤ := if 0 ≤ q then ⌊q⌋ else ⌈q⌉

/-- Row of the `problem_attempts` table (the columns the claims touch).
`review_interval_days` has column default 1 and `ease_factor` default 2.5. -/
structure ProblemAttempt where
  id : ℤ
  user_id : String
  created_at : ℤ
  verdict : Option String
  next_review_at : Option ℤ
  review_interval_days : ℤ
  ease_factor : ℚ
  mock_session_id : Option String
deriving DecidableEq

/-- `database.calculate_next_review(attempt, was_correct)`: the SM-2 variant
update.  The Python function mutates `attempt` in place and reads
`datetime.now()` itself; here the mutation is explicit state passing (the
updated row is returned together with the function's return value
`next_review_at`) and the clock read is the extra parameter `now`. -/
def calculate_next_review (attempt : ProblemAttempt) (was_correct : Bool) (now : ℤ) :
    ProblemAttempt × ℤ :=
  let new_interval : ℤ :=
    if was_correct then
      pyTrunc ((attempt.review_interval_days : ℚ) * attempt.ease_factor)
    else
      1
  let new_ease : ℚ :=
    if was_correct then
      min 2.5 (attempt.ease_factor + 0.1)
    else
      max 1.3 (attempt.ease_factor - 0.2)
  let next_review_at : ℤ := now + new_interval * usPerDay
  ({ attempt with
      review_interval_days := new_interval
      ease_factor := new_ease
      next_review_at := some next_review_at },
    next_review_at)

/-- Iterating `calculate_next_review` over a finite sequence of review
outcomes, each given as `(was_correct, time of the review)`. -/
def run_reviews (a : ProblemAttempt) : List (Bool × ℤ) → ProblemAttempt
  | [] => a
  | (b, t) :: rest => run_reviews (calculate_next_review a b t).1 rest

/-- `main.save_attempt` (`POST /attempts/save`): builds the new row (with the
column defaults `review_interval_days = 1`, `ease_factor = 2.5` and the
explicit `next_review_at = datetime.now()`), commits it, then calls
`calculate_next_review(attempt, verdict == "correct")` and commits again.
`now0` is the clock read in the row constructor, `now1` the clock read
inside `calculate_next_review`; the returned row is the finally-committed
state. -/
def save_attempt (userId : String) (verdict : String) (mockSessionId : Option String)
    (newId : ℤ) (now0 now1 : ℤ) : ProblemAttempt :=
  let attempt : ProblemAttempt :=
    { id := newId
      user_id := userId
      created_at := now0
      verdict := some verdict
      next_review_at := some now0
      review_interval_days := 1
      ease_factor := 2.5
      mock_session_id := mockSessionId }
  (calculate_next_review attempt (verdict == "correct") now1).1

/-- The SQL filter `ProblemAttempt.next_review_at <= now` of
`database.get_due_problems`; a SQL `NULL` timestamp compares false. -/
def isDue (a : ProblemAttempt) (now : ℤ) : Bool :=
  match a.next_review_at with
  | some t => t ≤ now
  | none => false

/-- `database.get_due_problems(db, user_id, limit)`: attempts of the user
with `next_review_at <= now`, ordered by `next_review_at` ascending, capped
at `limit`. -/
def get_due_problems (store : List ProblemAttempt) (userId : String) (now : ℤ)
    (limit : ℕ) : List ProblemAttempt :=
  ((store.filter (fun a => a.user_id == userId && isDue a now)).mergeSort
      (fun a b => a.next_review_at.getD 0 ≤ b.next_review_at.getD 0)).take limit

/-- Calendar date of a timestamp, as the day number since 1970-01-01
(what `strftime("%Y-%m-%d")` exposes of a datetime). -/
def dateOf (t : ℤ) : ℤ := t.fdiv usPerDay

/-- Python `date.weekday()`: Monday = 0 … Sunday = 6; day 0 of the epoch was
a Thursday. -/
def pyWeekday (d : ℤ) : ℤ := (d + 3) % 7

/-- The grouping key of `database.get_weekly_activity`:
`(created_at - timedelta(days=created_at.weekday())).strftime("%Y-%m-%d")`,
i.e. the date of the Monday of the attempt's week. -/
def mondayKey (t : ℤ) : ℤ := dateOf (t - pyWeekday (dateOf t) * usPerDay)

/-- `weekly_data.get(k, 0)` after the grouping loop of
`database.get_weekly_activity`: how many of the attempt creation times fall
under Monday-of-week key `k`. -/
def weekCount (ts : List ℤ) (k : ℤ) : ℕ :=
  (ts.filter (fun t => mondayKey t == k)).length

/-- The fill loop of `database.get_weekly_activity`:
`while current <= end_date:` emit `(current.strftime("%Y-%m-%d"),
weekly_data.get(week_key, 0))` and step `current += timedelta(weeks=1)`. -/
def fillWeeks (ts : List ℤ) (current end_date : ℤ) : List (ℤ × ℕ) :=
  if h : current ≤ end_date then
    (dateOf current, weekCount ts (dateOf current))
      :: fillWeeks ts (current + 7 * usPerDay) end_date
  else
    []
termination_by (end_date + 7 * usPerDay - current).toNat
decreasing_by
  have hu : (0:ℤ) < usPerDay := by decide
  omega

/-- `database.get_weekly_activity(db, user_id, weeks)`: filter the user's
attempts to `created_at >= start_date` where
`start_date = now - timedelta(weeks=weeks)`, group them by Monday-of-week
key, then walk `start_date, start_date + 1 week, …` up to `end_date = now`
emitting `(bucket date, count)` pairs.  `attemptTimes` are the creation
times of the user's attempts. -/
def get_weekly_activity (attemptTimes : List ℤ) (now : ℤ) (weeks : ℕ) :
    List (ℤ × ℕ) :=
  let end_date := now
  let start_date := end_date - (weeks : ℤ) * (7 * usPerDay)
  let inWindow := attemptTimes.filter (fun t => start_date ≤ t)
  fillWeeks inWindow start_date end_date

/-- Row of the `mock_interview_sessions` table (the columns the claims
touch). -/
structure MockInterviewSession where
  id : String
  user_id : String
  created_at : ℤ
  completed_at : Option ℤ
  problems_completed : ℤ
  total_score : Option ℚ
deriving DecidableEq

/-- The per-attempt contribution of the scoring loop in
`main.complete_mock_session`: `+100` for verdict `correct`, `+50` for
`partially_correct`, nothing otherwise (including an unset verdict). -/
def scoreOfVerdict (v : Option String) : ℚ :=
  if v = some "correct" then 100 else if v = some "partially_correct" then 50 else 0

/-- `main.complete_mock_session` (`POST /mock/complete/{session_id}`): look
the session up (404 if absent), gather the attempts linked to it, total the
per-attempt scores, divide by the number of attempts when there is at least
one (`if problems:`), then set `completed_at`, `problems_completed` and
`total_score` on the session.  Returns the updated session row and the
`score` field of the response body. -/
def complete_mock_session (sessions : List MockInterviewSession) (session_id : String)
    (attempts : List ProblemAttempt) (now : ℤ) :
    Except ℕ (MockInterviewSession × ℚ) :=
  match sessions.find? (fun s => s.id == session_id) with
  | none => .error 404
  | some session =>
    let problems := attempts.filter (fun p => p.mock_session_id == some session_id)
    let total0 : ℚ := (problems.map (fun p => scoreOfVerdict p.verdict)).sum
    let total_score : ℚ := if problems.isEmpty then total0 else total0 / problems.length
    .ok ({ session with
            completed_at := some now
            problems_completed := problems.length
            total_score := some total_score },
      total_score)

/-- Row of the `bookmarks` table. -/
structure Bookmark where
  id : ℤ
  user_id : String
  attempt_id : ℤ
deriving DecidableEq

/-- `main.delete_bookmark` (`DELETE /bookmarks/{bookmark_id}`): look the
bookmark up; delete it only when found (`if bookmark:`); in either case
answer `{"success": True}`.  The `Except` layer records that the handler
could raise an HTTP error, which this one never does. -/
def delete_bookmark (store : List Bookmark) (bookmark_id : ℤ) :
    Except ℕ (List Bookmark × Bool) :=
  match store.find? (fun b => b.id == bookmark_id) with
  | some b => .ok (store.erase b, true)
  | none => .ok (store, true)

/-- `main.get_attempt` (`GET /attempts/{attempt_id}`): look the attempt up
and raise 404 when the query yields nothing. -/
def get_attempt (store : List ProblemAttempt) (attempt_id : ℤ) :
    Except ℕ ProblemAttempt :=
  match store.find? (fun a => a.id == attempt_id) with
  | none => .error 404
  | some a => .ok a

/-- Round half to even at integer precision, the ideal-decimal semantics of
Python's built-in `round`. -/
def roundHalfToEven (x : ℚ) : ℤ :=
  if x - ⌊x⌋ = 1 / 2 then (if 2 ∣ ⌊x⌋ then ⌊x⌋ else ⌊x⌋ + 1) else round x

/-- Python `round(x, 1)`: round to one decimal place, halves to even. -/
def pyRound1 (x : ℚ) : ℚ := (roundHalfToEven (10 * x) : ℚ) / 10

/-- Python division, which raises `ZeroDivisionError` on a zero divisor. -/
def pyDiv (a b : ℚ) : Option ℚ := if b = 0 then none else some (a / b)

/-- The `correct_attempts` count of `main.get_analytics`: attempts whose
verdict is `correct`. -/
def countCorrect (verdicts : List (Option String)) : ℕ :=
  (verdicts.filter (fun v => v == some "correct")).length

/-- The accuracy field of `main.get_analytics` (`GET /analytics/{user_id}`):
`round(correct_attempts / total_attempts * 100, 1) if total_attempts > 0
else 0`, computed over the verdicts of the user's attempts.  `none` would
mean an uncaught `ZeroDivisionError`. -/
def get_analytics_accuracy (verdicts : List (Option String)) : Option ℚ :=
  let total := verdicts.length
  let correct := countCorrect verdicts
  if 0 < total then (pyDiv (correct : ℚ) (total : ℚ)).map (fun q => pyRound1 (q * 100))
  else some 0

/-- Python's substring test `needle in hay` on lists of characters. -/
def containsSub (needle : List Char) : List Char → Bool
  | [] => needle.isEmpty
  | c :: rest => needle.isPrefixOf (c :: rest) || containsSub needle rest

/-- The verdict extraction of `main.evaluate_solution_endpoint`
(`POST /evaluate`): default `partially_correct`; `incorrect` when the
lowercased evaluation text contains `"incorrect"` or `"wrong"`; otherwise
`correct` when it contains `"correct"` and not `"partially"`. -/
def parse_verdict (evaluation_md : List Char) : String :=
  let eval_lower := evaluation_md.map Char.toLower
  if containsSub "incorrect".toList eval_lower || containsSub "wrong".toList eval_lower then
    "incorrect"
  else if containsSub "correct".toList eval_lower
      && !containsSub "partially".toList eval_lower then
    "correct"
  else
    "partially_correct"

section SchedulerLemmas

/-- On the documented domain the truncated product is the floor of the
product and is at least the old interval (hence at least 1). -/
lemma pyTrunc_interval_bounds {i : ℤ} {e : ℚ} (h1 : 1 ≤ i) (h2 : (1.3:ℚ) ≤ e) :
    pyTrunc ((i : ℚ) * e) = ⌊(i : ℚ) * e⌋ ∧ i ≤ pyTrunc ((i : ℚ) * e) := by
  have hi0 : (0:ℚ) ≤ (i : ℚ) := by exact_mod_cast le_trans Int.one_nonneg h1
  have he1 : (1:ℚ) ≤ e := by linarith
  have hmul : (i : ℚ) ≤ (i : ℚ) * e := by
    calc (i : ℚ) = (i : ℚ) * 1 := by ring
    _ ≤ (i : ℚ) * e := by exact mul_le_mul_of_nonneg_left he1 hi0
  have hnn : (0:ℚ) ≤ (i : ℚ) * e := le_trans hi0 hmul
  refine ⟨if_pos hnn, ?_⟩
  unfold pyTrunc
  rw [if_pos hnn]
  exact Int.le_floor.mpr hmul

/-- One scheduler update keeps `ease_factor` inside `[1.3, 2.5]` and
`review_interval_days` at least 1. -/
lemma calculate_next_review_preserves (a : ProblemAttempt) (b : Bool) (t : ℤ)
    (h1 : 1 ≤ a.review_interval_days) (h2 : (1.3:ℚ) ≤ a.ease_factor)
    (h3 : a.ease_factor ≤ 2.5) :
    1 ≤ (calculate_next_review a b t).1.review_interval_days
      ∧ (1.3:ℚ) ≤ (calculate_next_review a b t).1.ease_factor
      ∧ (calculate_next_review a b t).1.ease_factor ≤ 2.5 := by
  cases b with
  | true =>
    obtain ⟨-, hle⟩ := pyTrunc_interval_bounds h1 h2
    refine ⟨le_trans h1 hle, ?_, ?_⟩
    · simp only [calculate_next_review, if_true]
      refine le_min (by norm_num) (by linarith)
    · simp only [calculate_next_review, if_true]
      exact min_le_left _ _
  | false =>
    refine ⟨le_refl 1, ?_, ?_⟩
    · simp only [calculate_next_review, if_false]
      exact le_max_left _ _
    · simp only [calculate_next_review, if_false]
      refine max_le (by norm_num) (by linarith)

end SchedulerLemmas

/-- C1: on the documented domain (`interval_days ≥ 1`,
`ease_factor ∈ [1.3, 2.5]`), a correct review sets the interval to
`floor(interval_days * ease_factor)` (truncation toward zero, which is at
least 1, so taking the minimum with 1 changes nothing) and the ease factor
to `min 2.5 (ease_factor + 0.1)`; an incorrect review resets the interval to
1 and sets the ease factor to `max 1.3 (ease_factor - 0.2)`; in both cases
`next_review_at` becomes `now + new_interval_days` days.  In particular
`interval_days = 1, ease_factor = 2.5, was_correct = True` gives interval 2,
ease 2.5 and `next_review_at = now + 2 days`, and `interval_days = 10,
ease_factor = 2.0, was_correct = False` gives interval 1 and ease 1.8. -/
theorem C1_scheduler_update (a : ProblemAttempt) (now : ℤ)
    (h1 : 1 ≤ a.review_interval_days)
    (h2 : (1.3:ℚ) ≤ a.ease_factor) (h3 : a.ease_factor ≤ 2.5) :
    ((calculate_next_review a true now).1.review_interval_days
        = max 1 ⌊(a.review_interval_days : ℚ) * a.ease_factor⌋
      ∧ (calculate_next_review a true now).1.ease_factor
          = min 2.5 (a.ease_factor + 0.1)
      ∧ (calculate_next_review a true now).1.next_review_at
          = some (now + (calculate_next_review a true now).1.review_interval_days * usPerDay))
    ∧ ((calculate_next_review a false now).1.review_interval_days = 1
      ∧ (calculate_next_review a false now).1.ease_factor
          = max 1.3 (a.ease_factor - 0.2)
      ∧ (calculate_next_review a false now).1.next_review_at
          = some (now + 1 * usPerDay))
    ∧ (a.review_interval_days = 1 → a.ease_factor = 2.5 →
        (calculate_next_review a true now).1.review_interval_days = 2
          ∧ (calculate_next_review a true now).1.ease_factor = 2.5
          ∧ (calculate_next_review a true now).1.next_review_at
              = some (now + 2 * usPerDay))
    ∧ (a.review_interval_days = 10 → a.ease_factor = 2 →
        (calculate_next_review a false now).1.review_interval_days = 1
          ∧ (calculate_next_review a false now).1.ease_factor = 1.8) := by
  obtain ⟨htr, hle⟩ := pyTrunc_interval_bounds h1 h2
  have h1le : 1 ≤ pyTrunc ((a.review_interval_days : ℚ) * a.ease_factor) :=
    le_trans h1 hle
  refine ⟨⟨?_, by simp [calculate_next_review], by simp [calculate_next_review]⟩,
    ⟨by simp [calculate_next_review], by simp [calculate_next_review],
      by simp [calculate_next_review]⟩, ?_, ?_⟩
  · simp only [calculate_next_review, if_true]
    rw [htr] at h1le ⊢
    exact (max_eq_right h1le).symm
  · intro hi he
    have : pyTrunc ((a.review_interval_days : ℚ) * a.ease_factor) = 2 := by
      rw [hi, he]
      norm_num [pyTrunc]
    constructor
    · simpa [calculate_next_review] using this
    constructor
    · simp only [calculate_next_review]
      rw [he]
      norm_num
    · simp [calculate_next_review, this]
  · intro hi he
    constructor
    · simp [calculate_next_review]
    · simp only [calculate_next_review]
      rw [he]
      norm_num

/-- Witness for C1 at `interval_days = 1`, `ease_factor = 2.5`, `now = 0`. -/
theorem C1_scheduler_update_witness :
    (calculate_next_review ⟨1, "u", 0, none, none, 1, 2.5, none⟩ true 0).1.review_interval_days
      = max 1 ⌊((⟨1, "u", 0, none, none, 1, 2.5, none⟩ : ProblemAttempt).review_interval_days : ℚ)
          * (⟨1, "u", 0, none, none, 1, 2.5, none⟩ : ProblemAttempt).ease_factor⌋ :=
  (C1_scheduler_update ⟨1, "u", 0, none, none, 1, 2.5, none⟩ 0 (by norm_num) (by norm_num)
    (by norm_num)).1.1

/-- C5: the spaced-repetition invariants (`ease_factor ∈ [1.3, 2.5]`,
`review_interval_days ≥ 1`) are preserved by every finite sequence of
scheduler updates, whatever mix of correct and incorrect outcomes. -/
theorem C5_invariant_sequences :
    ∀ (seq : List (Bool × ℤ)) (a : ProblemAttempt),
      1 ≤ a.review_interval_days → (1.3:ℚ) ≤ a.ease_factor → a.ease_factor ≤ 2.5 →
        1 ≤ (run_reviews a seq).review_interval_days
          ∧ (1.3:ℚ) ≤ (run_reviews a seq).ease_factor
          ∧ (run_reviews a seq).ease_factor ≤ 2.5 := by
  intro seq
  induction seq with
  | nil => exact fun a h1 h2 h3 => ⟨h1, h2, h3⟩
  | cons p rest ih =>
    intro a h1 h2 h3
    obtain ⟨b, t⟩ := p
    obtain ⟨g1, g2, g3⟩ := calculate_next_review_preserves a b t h1 h2 h3
    simpa [run_reviews] using ih (calculate_next_review a b t).1 g1 g2 g3

/-- Witness for C5: start at the defaults and run a correct, incorrect,
correct streak. -/
theorem C5_invariant_sequences_witness :
    1 ≤ (run_reviews ⟨1, "u", 0, none, none, 1, 2.5, none⟩
          [(true, 0), (false, 1), (true, 2)]).review_interval_days
      ∧ (1.3:ℚ) ≤ (run_reviews ⟨1, "u", 0, none, none, 1, 2.5, none⟩
          [(true, 0), (false, 1), (true, 2)]).ease_factor
      ∧ (run_reviews ⟨1, "u", 0, none, none, 1, 2.5, none⟩
          [(true, 0), (false, 1), (true, 2)]).ease_factor ≤ 2.5 :=
  C5_invariant_sequences [(true, 0), (false, 1), (true, 2)]
    ⟨1, "u", 0, none, none, 1, 2.5, none⟩ (by norm_num) (by norm_num) (by norm_num)

/-- C6: a single correct update never decreases the ease factor (and keeps
it at most 2.5) and never decreases the interval; a single incorrect update
sets the interval to exactly 1 and moves the ease factor down but never
below 1.3. -/
theorem C6_single_step_monotonicity (a : ProblemAttempt) (now : ℤ)
    (h1 : 1 ≤ a.review_interval_days)
    (h2 : (1.3:ℚ) ≤ a.ease_factor) (h3 : a.ease_factor ≤ 2.5) :
    (a.ease_factor ≤ (calculate_next_review a true now).1.ease_factor
      ∧ (calculate_next_review a true now).1.ease_factor ≤ 2.5
      ∧ a.review_interval_days ≤ (calculate_next_review a true now).1.review_interval_days)
    ∧ ((calculate_next_review a false now).1.review_interval_days = 1
      ∧ (1.3:ℚ) ≤ (calculate_next_review a false now).1.ease_factor
      ∧ (calculate_next_review a false now).1.ease_factor ≤ a.ease_factor) := by
  obtain ⟨-, hle⟩ := pyTrunc_interval_bounds h1 h2
  refine ⟨⟨?_, ?_, ?_⟩, ?_, ?_, ?_⟩
  · simp only [calculate_next_review, if_true]
    exact le_min h3 (by linarith)
  · simp only [calculate_next_review, if_true]
    exact min_le_left _ _
  · simpa [calculate_next_review] using hle
  · simp [calculate_next_review]
  · simp only [calculate_next_review, if_false]
    exact le_max_left _ _
  · simp only [calculate_next_review, if_false]
    exact max_le h2 (by linarith)

/-- Witness for C6 at the default state. -/
theorem C6_single_step_monotonicity_witness :
    ((⟨1, "u", 0, none, none, 1, 2.5, none⟩ : ProblemAttempt).ease_factor
        ≤ (calculate_next_review ⟨1, "u", 0, none, none, 1, 2.5, none⟩ true 0).1.ease_factor) :=
  (C6_single_step_monotonicity ⟨1, "u", 0, none, none, 1, 2.5, none⟩ 0 (by norm_num)
    (by norm_num) (by norm_num)).1.1

/-- C7 counterexample: the scheduler is not free of side effects on the
owning attempt — at the default state a correct review changes the
attempt's `review_interval_days` (from 1 to 2), so the function itself
mutates the row rather than leaving persistence of the outputs to the
caller. -/
theorem C7_counterexample :
    (calculate_next_review ⟨1, "u", 0, none, none, 1, 2.5, none⟩ true 0).1.review_interval_days
      ≠ (⟨1, "u", 0, none, none, 1, 2.5, none⟩ : ProblemAttempt).review_interval_days := by
  norm_num [calculate_next_review, pyTrunc]

/-- C7 amended: the scheduler is total and deterministic in the attempt
state, the outcome and the clock value — it raises no error anywhere — but
it writes the three new values onto the owning attempt itself (returning
the mutated row) and touches nothing else: every other column of the
attempt is unchanged, and the returned datetime is exactly the stored
`next_review_at = now + new_interval` days. -/
theorem C7_totality_and_frame (a : ProblemAttempt) (b : Bool) (now : ℤ) :
    (calculate_next_review a b now).1.id = a.id
    ∧ (calculate_next_review a b now).1.user_id = a.user_id
    ∧ (calculate_next_review a b now).1.created_at = a.created_at
    ∧ (calculate_next_review a b now).1.verdict = a.verdict
    ∧ (calculate_next_review a b now).1.mock_session_id = a.mock_session_id
    ∧ (calculate_next_review a b now).1.next_review_at
        = some ((calculate_next_review a b now).2)
    ∧ (calculate_next_review a b now).2
        = now + (calculate_next_review a b now).1.review_interval_days * usPerDay := by
  simp [calculate_next_review]

/-- C2 counterexample: saving an attempt with verdict `incorrect` at time 0
leaves the stored row with `next_review_at` one full day in the future —
not at or before the save time — so the attempt is absent from the
due-review selection run at the same instant.  The handler first stores
`next_review_at = now` but then immediately overwrites it via
`calculate_next_review` before returning. -/
theorem C2_counterexample :
    (save_attempt "u" "incorrect" none 1 0 0).next_review_at = some usPerDay
      ∧ ¬((usPerDay : ℤ) ≤ 0)
      ∧ get_due_problems [save_attempt "u" "incorrect" none 1 0 0] "u" 0 10 = [] := by
  have hv : (("incorrect" : String) == "correct") = false := by decide
  refine ⟨?_, by decide, ?_⟩
  · norm_num [save_attempt, calculate_next_review, hv]
  · norm_num [get_due_problems, save_attempt, calculate_next_review, isDue, hv,
      usPerDay, List.mergeSort_nil]

/-- C2 amended: `POST /attempts/save` persists the attempt but schedules its
first review strictly in the future, not due now: the committed
`next_review_at` is the handler's clock reading plus 2 days when the saved
verdict is `correct` (interval `int(1 * 2.5)`) and plus 1 day otherwise, so
the attempt is not due at save time and is excluded from the due-review
selection run then. -/
theorem C2_amended_schedule (userId verdict : String) (mockSessionId : Option String)
    (newId now0 now1 : ℤ) :
    (save_attempt userId verdict mockSessionId newId now0 now1).next_review_at
        = some (now1 + (if verdict = "correct" then 2 else 1) * usPerDay)
      ∧ now1 < now1 + (if verdict = "correct" then 2 else 1) * usPerDay
      ∧ isDue (save_attempt userId verdict mockSessionId newId now0 now1) now1 = false
      ∧ get_due_problems [save_attempt userId verdict mockSessionId newId now0 now1]
          userId now1 10 = [] := by
  have hnext : (save_attempt userId verdict mockSessionId newId now0 now1).next_review_at
      = some (now1 + (if verdict = "correct" then 2 else 1) * usPerDay) := by
    by_cases hv : verdict = "correct"
    · have hb : (verdict == "correct") = true := beq_iff_eq.mpr hv
      simp only [save_attempt, calculate_next_review, hb, if_true, hv]
      norm_num [pyTrunc]
    · have hb : (verdict == "correct") = false := beq_eq_false_iff_ne.mpr hv
      simp [save_attempt, calculate_next_review, hb, hv]
  have hpos : now1 < now1 + (if verdict = "correct" then 2 else 1) * usPerDay := by
    have : (0:ℤ) < (if verdict = "correct" then 2 else 1) * usPerDay := by
      by_cases hv : verdict = "correct" <;> simp [hv, usPerDay]
    omega
  have hdue : isDue (save_attempt userId verdict mockSessionId newId now0 now1) now1
      = false := by
    rw [isDue, hnext]
    simpa using hpos
  refine ⟨hnext, hpos, hdue, ?_⟩
  have huser : (save_attempt userId verdict mockSessionId newId now0 now1).user_id
      = userId := by
    by_cases hv : verdict = "correct" <;> simp [save_attempt, calculate_next_review]
  simp [get_due_problems, List.filter, huser, hdue, List.mergeSort_nil]

/-- C3 witnesses the weekly-activity bug: with `now` being day 1006 since
the epoch (1972-10-03, a Tuesday, Python weekday 1) and a single attempt
created exactly then — squarely inside the 12-week window — the aggregation
returns 13 buckets whose keys are all Tuesday-aligned dates (`start_date +
7k days`, none of them Mondays) and whose counts are all zero: the
attempt's Monday grouping key (day 1005) never matches any output bucket,
so the attempt is silently dropped instead of being counted in its
Monday-aligned week. -/
theorem C3_weekly_activity_failing_input :
    ((1006 : ℤ) - 12 * 7) * usPerDay ≤ 1006 * usPerDay
      ∧ pyWeekday (dateOf (1006 * usPerDay)) = 1
      ∧ mondayKey (1006 * usPerDay) = 1005
      ∧ (get_weekly_activity [1006 * usPerDay] (1006 * usPerDay) 12).length = 13
      ∧ ((get_weekly_activity [1006 * usPerDay] (1006 * usPerDay) 12).map Prod.fst).all
          (fun k => pyWeekday k != 0) = true
      ∧ ((get_weekly_activity [1006 * usPerDay] (1006 * usPerDay) 12).map Prod.snd)
          = List.replicate 13 0 := by
  have hEval : get_weekly_activity [1006 * usPerDay] (1006 * usPerDay) 12
      = [(922, 0), (929, 0), (936, 0), (943, 0), (950, 0), (957, 0), (964, 0),
         (971, 0), (978, 0), (985, 0), (992, 0), (999, 0), (1006, 0)] := by
    simp [get_weekly_activity, fillWeeks, usPerDay, weekCount, mondayKey, dateOf, pyWeekday]
  refine ⟨by decide, by decide, by decide, ?_, ?_, ?_⟩ <;> rw [hEval] <;> decide

/-- C4 counterexample: completing a mock session with no linked attempts
stores `total_score = 0` on the session — a set value, not an unset one as
the claim requires. -/
theorem C4_counterexample :
    complete_mock_session
        [{ id := "s1", user_id := "u", created_at := 0, completed_at := none,
           problems_completed := 0, total_score := none }] "s1" [] 7
      = .ok ({ id := "s1", user_id := "u", created_at := 0, completed_at := some 7,
               problems_completed := 0, total_score := some 0 }, 0) := by
  norm_num [complete_mock_session, List.find?]

/-- C4 amended: completion scores each linked attempt 100 / 50 / 0 by
verdict (0 for anything else, including an unset verdict), stores the
arithmetic mean as `total_score` when at least one attempt is linked —
e.g. `[correct, partially_correct, incorrect]` scores 50 — and stores
`total_score = 0` (not an unset value) when no attempts are linked. -/
theorem C4_mock_scoring (s : MockInterviewSession) (attempts : List ProblemAttempt)
    (now : ℤ) :
    (scoreOfVerdict (some "correct") = 100
      ∧ scoreOfVerdict (some "partially_correct") = 50
      ∧ scoreOfVerdict (some "incorrect") = 0
      ∧ scoreOfVerdict none = 0
      ∧ (∀ v, v ≠ some "correct" → v ≠ some "partially_correct" → scoreOfVerdict v = 0))
    ∧ (∃ s' score, complete_mock_session [s] s.id attempts now = .ok (s', score)
        ∧ s'.total_score = some score
        ∧ s'.completed_at = some now
        ∧ s'.problems_completed
            = (attempts.filter (fun p => p.mock_session_id == some s.id)).length
        ∧ (attempts.filter (fun p => p.mock_session_id == some s.id) = [] → score = 0)
        ∧ (attempts.filter (fun p => p.mock_session_id == some s.id) ≠ [] →
            score = ((attempts.filter (fun p => p.mock_session_id == some s.id)).map
                  (fun p => scoreOfVerdict p.verdict)).sum
              / ((attempts.filter (fun p => p.mock_session_id == some s.id)).length : ℚ)))
    ∧ complete_mock_session
          [{ id := "s1", user_id := "u", created_at := 0, completed_at := none,
             problems_completed := 0, total_score := none }] "s1"
          [⟨1, "u", 0, some "correct", none, 1, 2.5, some "s1"⟩,
           ⟨2, "u", 0, some "partially_correct", none, 1, 2.5, some "s1"⟩,
           ⟨3, "u", 0, some "incorrect", none, 1, 2.5, some "s1"⟩] 9
        = .ok ({ id := "s1", user_id := "u", created_at := 0, completed_at := some 9,
                 problems_completed := 3, total_score := some 50 }, 50) := by
  refine ⟨⟨by simp [scoreOfVerdict], by simp [scoreOfVerdict],
      by simp [scoreOfVerdict], by simp [scoreOfVerdict], ?_⟩, ?_, ?_⟩
  · intro v hv1 hv2
    simp [scoreOfVerdict, hv1, hv2]
  · have hfind : ([s].find? (fun x => x.id == s.id)) = some s := by
      simp [List.find?]
    simp only [complete_mock_session, hfind]
    refine ⟨_, _, rfl, rfl, rfl, rfl, ?_, ?_⟩
    · intro hempty
      simp [hempty]
    · intro hne
      have hb : (attempts.filter (fun p => p.mock_session_id == some s.id)).isEmpty
          = false := by
        simpa [List.isEmpty_iff] using hne
      simp [hb]
  · have h1 : ((some "s1" : Option String) == some "s1") = true := by decide
    simp [complete_mock_session, List.find?, List.filter, scoreOfVerdict, h1]
    norm_num

/-- Witness for C4 at a concrete session, attempt list and time. -/
theorem C4_mock_scoring_witness :
    scoreOfVerdict (some "correct") = 100 :=
  (C4_mock_scoring ⟨"s1", "u", 0, none, 0, none⟩ [] 0).1.1

/-- C8: the analytics accuracy computation never divides by zero: it
returns a value (`isSome`) on every verdict multiset, that value is 0 for a
user with no attempts, and for a user with at least one attempt it is
`correct / total * 100` rounded to one decimal place. -/
theorem C8_accuracy_no_division_error :
    (∀ verdicts : List (Option String), (get_analytics_accuracy verdicts).isSome = true)
    ∧ get_analytics_accuracy [] = some 0
    ∧ (∀ (v : Option String) (vs : List (Option String)),
        get_analytics_accuracy (v :: vs)
          = some (pyRound1 ((countCorrect (v :: vs) : ℚ) / (((v :: vs).length : ℕ) : ℚ)
              * 100))) := by
  have hcons : ∀ (v : Option String) (vs : List (Option String)),
      get_analytics_accuracy (v :: vs)
        = some (pyRound1 ((countCorrect (v :: vs) : ℚ) / (((v :: vs).length : ℕ) : ℚ)
            * 100)) := by
    intro v vs
    have hne : (((v :: vs).length : ℕ) : ℚ) ≠ 0 :=
      Nat.cast_ne_zero.mpr (Nat.succ_ne_zero vs.length)
    simp only [get_analytics_accuracy, pyDiv]
    rw [if_pos (show 0 < (v :: vs).length from Nat.succ_pos vs.length), if_neg hne]
    rfl
  refine ⟨?_, by simp [get_analytics_accuracy], hcons⟩
  intro verdicts
  cases verdicts with
  | nil => simp [get_analytics_accuracy]
  | cons v vs => rw [hcons v vs]; rfl

/-- C9 counterexample: deleting a bookmark whose identifier does not exist
answers success, not a not-found response. -/
theorem C9_counterexample :
    delete_bookmark [] 1 = .ok ([], true) ∧ delete_bookmark [] 1 ≠ .error 404 :=
  ⟨rfl, fun h => Except.noConfusion h⟩

/-- C9 amended: lookups of an attempt or a mock session by an identifier
that matches nothing surface a 404 not-found response, but deleting a
bookmark whose identifier does not exist succeeds (leaving the store
unchanged) instead of surfacing a not-found response. -/
theorem C9_not_found_handling :
    (∀ (store : List ProblemAttempt) (aid : ℤ),
        store.find? (fun a => a.id == aid) = none → get_attempt store aid = .error 404)
    ∧ (∀ (sessions : List MockInterviewSession) (sid : String)
          (attempts : List ProblemAttempt) (now : ℤ),
        sessions.find? (fun s => s.id == sid) = none →
          complete_mock_session sessions sid attempts now = .error 404)
    ∧ (∀ (store : List Bookmark) (bid : ℤ),
        store.find? (fun b => b.id == bid) = none →
          delete_bookmark store bid = .ok (store, true)) := by
  refine ⟨?_, ?_, ?_⟩
  · intro store aid h
    simp [get_attempt, h]
  · intro sessions sid attempts now h
    simp [complete_mock_session, h]
  · intro store bid h
    simp [delete_bookmark, h]

/-- Witness for C9 on empty stores. -/
theorem C9_not_found_handling_witness :
    get_attempt [] 1 = .error 404
      ∧ complete_mock_session [] "s" [] 0 = .error 404
      ∧ delete_bookmark [] 1 = .ok ([], true) :=
  ⟨C9_not_found_handling.1 [] 1 rfl, C9_not_found_handling.2.1 [] "s" [] 0 rfl,
    C9_not_found_handling.2.2 [] 1 rfl⟩

section VerdictParsing

/-- `containsSub` decides Python's substring relation: it holds exactly when
the needle is a contiguous infix of the haystack. -/
lemma containsSub_iff_substring (n : List Char) :
    ∀ l : List Char, containsSub n l = true ↔ n <:+: l := by
  intro l
  induction l with
  | nil =>
    simp [containsSub, List.isEmpty_iff]
  | cons c rest ih =>
    simp [containsSub, List.infix_cons_iff, List.isPrefixOf_iff_prefix, ih]

/-- A haystack containing `"incorrect"` also contains `"correct"`, because
the latter is a substring of the former. -/
lemma containsSub_correct_of_incorrect {l : List Char}
    (h : containsSub "incorrect".toList l = true) :
    containsSub "correct".toList l = true := by
  rw [containsSub_iff_substring] at h ⊢
  have hsub : "correct".toList <:+: "incorrect".toList := by
    rw [← containsSub_iff_substring]
    decide
  exact hsub.trans h

end VerdictParsing

/-- C10: the verdict extracted from evaluation text follows a fixed
substring-priority order on the lowercased text: `"incorrect"` or
`"wrong"` anywhere forces verdict `incorrect` (and this branch indeed
covers every text containing `"incorrect"`, which necessarily also
contains `"correct"` as a substring); otherwise `"correct"` without
`"partially"` gives `correct`; otherwise the verdict defaults to
`partially_correct`. -/
theorem C10_verdict_priority :
    (∀ md : List Char,
      ((containsSub "incorrect".toList (md.map Char.toLower) = true
          ∨ containsSub "wrong".toList (md.map Char.toLower) = true) →
        parse_verdict md = "incorrect")
      ∧ (containsSub "incorrect".toList (md.map Char.toLower) = false →
          containsSub "wrong".toList (md.map Char.toLower) = false →
          containsSub "correct".toList (md.map Char.toLower) = true →
          containsSub "partially".toList (md.map Char.toLower) = false →
          parse_verdict md = "correct")
      ∧ (containsSub "incorrect".toList (md.map Char.toLower) = false →
          containsSub "wrong".toList (md.map Char.toLower) = false →
          (containsSub "correct".toList (md.map Char.toLower) = false
            ∨ containsSub "partially".toList (md.map Char.toLower) = true) →
          parse_verdict md = "partially_correct"))
    ∧ (∀ l : List Char, containsSub "incorrect".toList l = true →
        containsSub "correct".toList l = true) := by
  refine ⟨?_, fun l h => containsSub_correct_of_incorrect h⟩
  intro md
  refine ⟨?_, ?_, ?_⟩
  · rintro (h | h)
    · simp only [parse_verdict, h, Bool.true_or, if_true]
    · simp only [parse_verdict, h, Bool.or_true, if_true]
  · intro h1 h2 h3 h4
    simp only [parse_verdict, h1, h2, h3, h4]
    simp
  · intro h1 h2 h3
    rcases h3 with h3 | h3 <;>
      · simp only [parse_verdict, h1, h2, h3]
        simp

/-- Witness for C10: a text containing `"Incorrect"` and `"correct"` is
classified `incorrect`. -/
theorem C10_verdict_priority_witness :
    parse_verdict "The answer is Incorrect although partially correct".toList
      = "incorrect" :=
  (C10_verdict_priority.1 "The answer is Incorrect although partially correct".toList).1
    (Or.inl (by decide))

end InterviewPrep
